import Mathlib

/-!
Verification of the quilt VM core (src/vm.rs): cursor movement,
next-instruction selection, start location, and the direction algebra.

The grid container (`Matrix`, `MatrixPoint`) and the pixel-to-instruction
mapping live outside the given source file; they are modelled from the
specification and marked as such.  Everything under the `VM` namespace is
translated directly from `src/vm.rs`.
-/

/-- Modelled from the spec: a cell value is "an opaque unsigned numeral;
meaningful only through the external mapping to an Instruction tag"
(the `Pixel` type itself is defined outside `src/vm.rs`). -/
abbrev Pixel := Nat

/-- Modelled from the spec: `Instruction` is "a closed tagged union with a
known, finite set of movement-relevant tags (`Start`, `Road`) plus one
catch-all variant carrying the opaque numeral" (the `Instruction` type is
defined outside `src/vm.rs`). -/
inductive Instruction where
  | Start : Instruction
  | Road : Instruction
  | Other : Nat → Instruction
deriving DecidableEq

/-- The four cardinal headings, from `enum Direction` in `src/vm.rs`. -/
inductive Direction where
  | North : Direction
  | East : Direction
  | South : Direction
  | West : Direction
deriving DecidableEq

/-- `Direction::opposite` from `src/vm.rs`. -/
def Direction.opposite : Direction → Direction
  | .North => .South
  | .West => .East
  | .South => .North
  | .East => .West

/-- `Direction::counter_clockwise` from `src/vm.rs`. -/
def Direction.counter_clockwise : Direction → Direction
  | .North => .West
  | .West => .South
  | .South => .East
  | .East => .North

/-- Modelled from the spec: a coordinate is an "ordered pair (column, row),
zero-based" (the `MatrixPoint` type is defined outside `src/vm.rs`;
`MatrixPoint(col, row)` carries the column first). -/
structure MatrixPoint where
  col : Nat
  row : Nat
deriving DecidableEq

/-- Modelled from the spec: cell lookup in a grid that is "a rectangular
ordered sequence of rows, each an ordered sequence of cells; rows may have
differing lengths".  Returns the cell at (column `col`, row `row`) when in
bounds for that row. -/
def Matrix.cellAt (m : List (List Pixel)) (col row : Nat) : Option Pixel :=
  match m.get? row with
  | none => none
  | some r => r.get? col

/-- Modelled from the spec: `neighbor(point, direction) -> optional Cell`,
"the cell one step from `point` in `direction` if that coordinate lies within
the grid's row/column bounds"; "No implicit wraparound", rows run
top-to-bottom (the `Matrix::go` method is defined outside `src/vm.rs`). -/
def Matrix.go (m : List (List Pixel)) (p : MatrixPoint) (d : Direction) :
    Option Pixel :=
  match d with
  | .North => if p.row = 0 then none else Matrix.cellAt m p.col (p.row - 1)
  | .South => Matrix.cellAt m p.col (p.row + 1)
  | .East => Matrix.cellAt m (p.col + 1) p.row
  | .West => if p.col = 0 then none else Matrix.cellAt m (p.col - 1) p.row

/-- Modelled from the spec: "`pc` is always a valid grid coordinate" — a
coordinate is valid when the grid holds a cell there. -/
def Matrix.validPoint (m : List (List Pixel)) (p : MatrixPoint) : Bool :=
  (Matrix.cellAt m p.col p.row).isSome

/-- The interpreter state, from `struct VM` in `src/vm.rs`.  The grid
`Matrix<Pixel>` is represented as its row list. -/
structure VM where
  stack : List Nat
  register_a : Nat
  tape : List Nat
  direction : Direction
  instructions : List (List Pixel)
  pc : MatrixPoint

/-- `TAPE_SIZE` from `src/vm.rs`. -/
def TAPE_SIZE : Nat := 360

/-- `impl Default for VM` from `src/vm.rs`. -/
def VM.default : VM where
  stack := []
  register_a := 0
  tape := List.replicate TAPE_SIZE 0
  direction := .East
  instructions := []
  pc := ⟨0, 0⟩

/-- `VM::new` from `src/vm.rs`. -/
def VM.new : VM := VM.default

/-- `matches!(pixel.as_instruction(), Instruction::Road)` from
`VM::get_next_instruction` in `src/vm.rs`. -/
def isRoad : Instruction → Bool
  | .Road => true
  | _ => false

/-- `pixel.as_instruction() == Instruction::Start` from `VM::find_start`
in `src/vm.rs`. -/
def isStart : Instruction → Bool
  | .Start => true
  | _ => false

/-- The four directions probed by `VM::get_next_pixels` in `src/vm.rs`, in
source order: forward `dir`, right `dir.counter_clockwise().opposite()`,
left `dir.counter_clockwise()`, back `dir.opposite()`. -/
def probeDirections (d : Direction) : List Direction :=
  [d, d.counter_clockwise.opposite, d.counter_clockwise, d.opposite]

/-- `VM::get_next_pixels` from `src/vm.rs`: push `(direction, pixel)` for each
of the four probe directions whose `go` lookup succeeds, in probe order. -/
def VM.get_next_pixels (vm : VM) : List (Direction × Pixel) :=
  (probeDirections vm.direction).filterMap
    (fun d => (Matrix.go vm.instructions vm.pc d).map (fun px => (d, px)))

/-- `VM::get_next_instruction` from `src/vm.rs`, with the pixel-to-instruction
mapping `asInstruction` passed explicitly (it is external to the core).  The
Rust indexes `next_pixels[0]`, which panics on an empty candidate list; that
failure is modelled as `none`.  (`next_pixels.last().unwrap()` is reached only
when the list is non-empty, so it cannot fail.) -/
def VM.get_next_instruction (asInstruction : Pixel → Instruction) (vm : VM) :
    Option Pixel :=
  let next_pixels := vm.get_next_pixels
  match next_pixels.head? with
  | none => none
  | some (first_dir, first_pixel) =>
    match next_pixels.find? (fun dp => isRoad (asInstruction dp.2)) with
    | some (dir, road) =>
      if dir ≠ vm.direction.opposite then some road
      else if first_dir = vm.direction then some first_pixel
      else (next_pixels.getLast?).map Prod.snd
    | none => (next_pixels.getLast?).map Prod.snd

/-- The inner loop of `VM::find_start` in `src/vm.rs`: scan one row
left-to-right, returning the column index of the first `Start` cell. -/
def findStartInRow (asInstruction : Pixel → Instruction) :
    List Pixel → Nat → Option Nat
  | [], _ => none
  | px :: rest, col =>
    if isStart (asInstruction px) then some col
    else findStartInRow asInstruction rest (col + 1)

/-- The outer loop of `VM::find_start` in `src/vm.rs`: scan rows
top-to-bottom; on the first row holding a `Start`, return
`MatrixPoint(col_idx, row_idx)`; otherwise return the default `(0, 0)`. -/
def findStartRows (asInstruction : Pixel → Instruction) :
    List (List Pixel) → Nat → MatrixPoint
  | [], _ => ⟨0, 0⟩
  | row :: rest, r =>
    match findStartInRow asInstruction row 0 with
    | some c => ⟨c, r⟩
    | none => findStartRows asInstruction rest (r + 1)

/-- `VM::find_start` from `src/vm.rs`. -/
def VM.find_start (asInstruction : Pixel → Instruction) (vm : VM) :
    MatrixPoint :=
  findStartRows asInstruction vm.instructions 0

/-- `VM::execute` from `src/vm.rs`: install the grid, then set `pc` to
`self.find_start()` (the commented-out dispatch loop does nothing). -/
def VM.execute (asInstruction : Pixel → Instruction) (vm : VM)
    (instructions : List (List Pixel)) : VM :=
  let vm1 := { vm with instructions := instructions }
  { vm1 with pc := vm1.find_start asInstruction }

/-- A sample external pixel-to-instruction mapping for concrete runs,
using the numerals of the repository's tests (300 is `Start`). -/
def sampleMap : Pixel → Instruction :=
  fun px => if px = 300 then .Start else if px = 108 then .Road else .Other px

/-- A degenerate 1x1 grid state: every directional neighbor lookup from
`(0, 0)` is out of bounds. -/
def vmDegenerate : VM := { VM.new with instructions := [[5]], pc := ⟨0, 0⟩ }

/-- A VM whose cursor state was disturbed before a run, used to show that
`execute` carries cursor state over instead of resetting it. -/
def vmDisturbed : VM := { VM.new with direction := .North, stack := [5] }

/-- Claim C8: for every direction `d`, `opposite` is an involution,
`counter_clockwise` is a 4-cycle, and `counter_clockwise` has no fixed
point. -/
theorem direction_algebra (d : Direction) :
    d.opposite.opposite = d ∧
    d.counter_clockwise.counter_clockwise.counter_clockwise.counter_clockwise
      = d ∧
    d.counter_clockwise ≠ d := by
  cases d <;> exact ⟨rfl, rfl, by decide⟩

/-- Claim C8 witness: the algebra instantiated at `North`. -/
theorem direction_algebra_witness :
    Direction.North.opposite.opposite = .North ∧
    Direction.North.counter_clockwise.counter_clockwise.counter_clockwise.counter_clockwise
      = .North ∧
    Direction.North.counter_clockwise ≠ .North :=
  direction_algebra .North

/-- Claim C7: the probe list used by the movement selector is exactly forward
`d`, right `counter_clockwise(opposite(d))`, left `counter_clockwise(d)`,
back `opposite(d)` — in particular the source's right probe
`d.counter_clockwise().opposite()` coincides with the spec's
`counter_clockwise(opposite(d))`. -/
theorem probe_directions_algebra (d : Direction) :
    probeDirections d =
      [d, d.opposite.counter_clockwise, d.counter_clockwise, d.opposite] := by
  cases d <;> rfl

/-- Claim C2: the candidate list equals the spec-ordered probe list
(forward, right = `counter_clockwise(opposite(d))`, left, back) filtered to
the in-bounds neighbors, keeping the probe order; its length is at most 4. -/
theorem candidate_list_is_ordered_probe_filter (vm : VM) :
    vm.get_next_pixels =
      ([vm.direction, vm.direction.opposite.counter_clockwise,
        vm.direction.counter_clockwise, vm.direction.opposite]).filterMap
        (fun d => (Matrix.go vm.instructions vm.pc d).map (fun px => (d, px)))
      ∧ vm.get_next_pixels.length ≤ 4 := by
  constructor
  · obtain ⟨s, r, t, d, i, p⟩ := vm
    cases d <;> rfl
  · exact le_trans (List.length_filterMap_le _ _) (by rfl)

/-- Claim C3: when the candidate list is empty, the movement selector fails
(the Rust indexing `next_pixels[0]` panics, modelled as `none`) instead of
returning a default cell. -/
theorem empty_candidates_fatal (asInstruction : Pixel → Instruction)
    (vm : VM) (h : vm.get_next_pixels = []) :
    vm.get_next_instruction asInstruction = none := by
  simp [VM.get_next_instruction, h]

/-- Claim C3 witness: on a 1x1 grid all four lookups fail and the selector
returns no cell. -/
theorem empty_candidates_fatal_witness :
    vmDegenerate.get_next_pixels = [] ∧
    vmDegenerate.get_next_instruction sampleMap = none :=
  ⟨by decide, empty_candidates_fatal sampleMap vmDegenerate (by decide)⟩

/-- Claim C10: a fresh VM has heading East, pc (0, 0), empty stack, zero
register, a 360-cell all-zero tape; and since `execute` never writes the
heading, East is still the heading after `execute` starts a run. -/
theorem fresh_vm_initial_state (asInstruction : Pixel → Instruction)
    (g : List (List Pixel)) :
    VM.new.direction = .East ∧
    VM.new.pc = ⟨0, 0⟩ ∧
    VM.new.stack = [] ∧
    VM.new.register_a = 0 ∧
    VM.new.tape = List.replicate 360 0 ∧
    (VM.new.execute asInstruction g).direction = .East :=
  ⟨rfl, rfl, rfl, rfl, rfl, rfl⟩

/-- Claim C5 counterexample: `execute` does not reset cursor state — a VM
whose heading was North and whose stack held 5 keeps both across
`execute`, so the heading is not replaced by the fresh initial value East. -/
theorem execute_reset_counterexample :
    (vmDisturbed.execute sampleMap [[300, 108]]).direction = .North ∧
    (vmDisturbed.execute sampleMap [[300, 108]]).stack = [5] ∧
    Direction.North ≠ Direction.East :=
  ⟨rfl, rfl, by decide⟩

/-- Claim C5 (amended): `execute(g)` installs the grid `g` and sets `pc` to
the start locator's result for `g`; the operand stack, accumulator register,
tape and heading are carried over unchanged from the previous state (they are
fresh only at VM construction, not per run). -/
theorem execute_installs_grid_preserves_cursor
    (asInstruction : Pixel → Instruction) (vm : VM) (g : List (List Pixel)) :
    (vm.execute asInstruction g).instructions = g ∧
    (vm.execute asInstruction g).pc = findStartRows asInstruction g 0 ∧
    (vm.execute asInstruction g).stack = vm.stack ∧
    (vm.execute asInstruction g).register_a = vm.register_a ∧
    (vm.execute asInstruction g).tape = vm.tape ∧
    (vm.execute asInstruction g).direction = vm.direction :=
  ⟨rfl, rfl, rfl, rfl, rfl, rfl⟩

/-- The selection policy as worded by the specification (claim C1): take the
first candidate whose tag is `Road` provided its direction is not
`opposite(heading)`; otherwise, if a road candidate exists and the first
candidate's direction equals the heading, take the first candidate; otherwise
take the last candidate ("bounce").  Stated over an arbitrary candidate list
to be compared with `VM.get_next_instruction`. -/
def claimSelect (asInstruction : Pixel → Instruction) (heading : Direction)
    (cands : List (Direction × Pixel)) : Option Pixel :=
  match cands.find? (fun dp => isRoad (asInstruction dp.2)) with
  | some (dir, road) =>
    if dir ≠ heading.opposite then some road
    else
      match cands.head? with
      | some (fd, fp) =>
        if fd = heading then some fp else (cands.getLast?).map Prod.snd
      | none => (cands.getLast?).map Prod.snd
  | none => (cands.getLast?).map Prod.snd

/-- A 2x2 run state used as a concrete movement-selector input. -/
def vmRunA : VM := { VM.new with instructions := [[1, 108], [2, 3]] }

/-- The same run state with a different stack and register, used to show the
selector ignores them. -/
def vmRunB : VM := { vmRunA with stack := [7], register_a := 3 }

/-- Claim C1: on a non-empty candidate list the movement selector returns
exactly what the specification's selection policy describes: the first road
candidate when it is not behind, else the first candidate when a road exists
and the first candidate points along the heading, else the last candidate. -/
theorem road_selection_matches_spec (asInstruction : Pixel → Instruction)
    (vm : VM) (h : vm.get_next_pixels ≠ []) :
    vm.get_next_instruction asInstruction =
      claimSelect asInstruction vm.direction vm.get_next_pixels := by
  unfold VM.get_next_instruction claimSelect
  cases hl : vm.get_next_pixels with
  | nil => exact absurd hl h
  | cons hd tl =>
    obtain ⟨fd, fp⟩ := hd
    cases hf : (((fd, fp) :: tl).find? (fun dp => isRoad (asInstruction dp.2)))
        with
    | none => simp [hf]
    | some dr =>
      obtain ⟨dir, road⟩ := dr
      simp only [hf, List.head?_cons]

/-- Claim C1 witness: the policy equivalence instantiated on a concrete 2x2
grid with a road ahead. -/
theorem road_selection_matches_spec_witness :
    vmRunA.get_next_pixels ≠ [] ∧
    vmRunA.get_next_instruction sampleMap =
      claimSelect sampleMap vmRunA.direction vmRunA.get_next_pixels :=
  ⟨by decide, road_selection_matches_spec sampleMap vmRunA (by decide)⟩

/-- Claim C9: the movement selector is a deterministic function of the grid,
the position and the heading — two states agreeing on those three fields (the
stack, register and tape may differ) select the same cell. -/
theorem selector_deterministic (asInstruction : Pixel → Instruction)
    (vm1 vm2 : VM) (hi : vm1.instructions = vm2.instructions)
    (hp : vm1.pc = vm2.pc) (hd : vm1.direction = vm2.direction) :
    vm1.get_next_instruction asInstruction =
      vm2.get_next_instruction asInstruction := by
  simp only [VM.get_next_instruction, VM.get_next_pixels, hi, hp, hd]

/-- Claim C9 witness: two concrete states differing only in stack and
register select the same cell. -/
theorem selector_deterministic_witness :
    vmRunA.get_next_instruction sampleMap =
      vmRunB.get_next_instruction sampleMap :=
  selector_deterministic sampleMap vmRunA vmRunB rfl rfl rfl

/-- The (coordinate, cell) entries of one row in left-to-right order, columns
numbered from `c`, all at row index `r` — used to spell out the spec's
row-major scan order. -/
def rowEntries (r : Nat) : List Pixel → Nat → List (MatrixPoint × Pixel)
  | [], _ => []
  | px :: rest, c => (⟨c, r⟩, px) :: rowEntries r rest (c + 1)

/-- The (coordinate, cell) entries of a grid in row-major order (rows
top-to-bottom, columns left-to-right within each row), rows numbered
from `r`. -/
def gridEntries : List (List Pixel) → Nat → List (MatrixPoint × Pixel)
  | [], _ => []
  | row :: rest, r => rowEntries r row 0 ++ gridEntries rest (r + 1)

/-- The start locator as worded by the specification (claim C4): the
coordinate of the first `Start`-tagged cell in row-major scan order, and
`(0, 0)` when no such cell exists. -/
def rowMajorStart (asInstruction : Pixel → Instruction)
    (m : List (List Pixel)) : MatrixPoint :=
  match (gridEntries m 0).find? (fun e => isStart (asInstruction e.2)) with
  | some e => e.1
  | none => ⟨0, 0⟩

/-- Scanning one row of the row-major entry list finds a `Start` exactly where
the source's inner column loop does. -/
theorem findStartInRow_rowEntries (asInstruction : Pixel → Instruction)
    (row : List Pixel) : ∀ c r,
    ((rowEntries r row c).find? (fun e => isStart (asInstruction e.2))).map
        Prod.fst =
      (findStartInRow asInstruction row c).map
        (fun col => MatrixPoint.mk col r) := by
  induction row with
  | nil => intro c r; rfl
  | cons px rest ih =>
    intro c r
    by_cases hs : isStart (asInstruction px) = true
    · simp [rowEntries, findStartInRow, hs]
    · simp only [rowEntries, findStartInRow, hs, if_false]
      rw [List.find?_cons_of_neg _ (by simpa using hs)]
      exact ih (c + 1) r

/-- The source's double loop agrees with a single `find?` over the row-major
entry list, for any starting row index. -/
theorem findStartRows_gridEntries (asInstruction : Pixel → Instruction)
    (rows : List (List Pixel)) : ∀ r,
    findStartRows asInstruction rows r =
      (match (gridEntries rows r).find?
          (fun e => isStart (asInstruction e.2)) with
       | some e => e.1
       | none => ⟨0, 0⟩) := by
  induction rows with
  | nil => intro r; rfl
  | cons row rest ih =>
    intro r
    simp only [findStartRows, gridEntries]
    rw [List.find?_append]
    have hmap := findStartInRow_rowEntries asInstruction row 0 r
    cases hrow : findStartInRow asInstruction row 0 with
    | some c =>
      rw [hrow] at hmap
      cases hfind : (rowEntries r row 0).find?
          (fun e => isStart (asInstruction e.2)) with
      | none => rw [hfind] at hmap; simp at hmap
      | some e =>
        rw [hfind] at hmap
        simp only [Option.map_some'] at hmap
        have he : e.1 = ⟨c, r⟩ := by simpa using hmap
        show (⟨c, r⟩ : MatrixPoint) = e.1
        exact he.symm
    | none =>
      rw [hrow] at hmap
      have hnone : (rowEntries r row 0).find?
          (fun e => isStart (asInstruction e.2)) = none := by
        cases hfind : (rowEntries r row 0).find?
            (fun e => isStart (asInstruction e.2)) with
        | none => rfl
        | some e => rw [hfind] at hmap; simp at hmap
      rw [hnone]
      simpa using ih (r + 1)

/-- Claim C4: the start locator returns the coordinate of the first
`Start`-tagged cell in row-major scan order, and defaults to `(0, 0)` when
the grid holds no `Start` cell. -/
theorem find_start_rowMajor (asInstruction : Pixel → Instruction) (vm : VM) :
    vm.find_start asInstruction = rowMajorStart asInstruction vm.instructions :=
  findStartRows_gridEntries asInstruction vm.instructions 0

/-- When the inner column loop reports a `Start` at column `c`, that column
really holds a `Start`-tagged cell of the row. -/
theorem findStartInRow_some_get (asInstruction : Pixel → Instruction)
    (row : List Pixel) : ∀ c0 c,
    findStartInRow asInstruction row c0 = some c →
    c0 ≤ c ∧ ∃ px, row.get? (c - c0) = some px ∧
      isStart (asInstruction px) = true := by
  induction row with
  | nil => intro c0 c h; exact absurd h (by simp [findStartInRow])
  | cons px rest ih =>
    intro c0 c h
    by_cases hs : isStart (asInstruction px) = true
    · rw [findStartInRow, if_pos hs] at h
      obtain rfl : c0 = c := by simpa using h
      exact ⟨le_refl c0, px, by simp, hs⟩
    · rw [findStartInRow, if_neg hs] at h
      obtain ⟨hle, px', hget, hst⟩ := ih (c0 + 1) c h
      refine ⟨by omega, px', ?_, hst⟩
      have harith : c - c0 = (c - (c0 + 1)) + 1 := by omega
      rw [harith]
      simpa using hget

/-- The start locator either falls back to the origin or points at an actual
`Start`-tagged cell of the grid (row indices counted from `r0`). -/
theorem findStartRows_valid (asInstruction : Pixel → Instruction)
    (rows : List (List Pixel)) : ∀ r0,
    findStartRows asInstruction rows r0 = ⟨0, 0⟩ ∨
    ∃ c i, findStartRows asInstruction rows r0 = ⟨c, r0 + i⟩ ∧
      ∃ row, rows.get? i = some row ∧ ∃ px, row.get? c = some px ∧
        isStart (asInstruction px) = true := by
  induction rows with
  | nil => intro r0; exact Or.inl rfl
  | cons row rest ih =>
    intro r0
    cases hrow : findStartInRow asInstruction row 0 with
    | some c =>
      right
      obtain ⟨_, px, hget, hst⟩ :=
        findStartInRow_some_get asInstruction row 0 c hrow
      exact ⟨c, 0, by simp [findStartRows, hrow], row, rfl, px, hget, hst⟩
    | none =>
      cases ih (r0 + 1) with
      | inl h => left; simp [findStartRows, hrow, h]
      | inr h =>
        obtain ⟨c, i, heq, row', hrow', px, hpx, hstart⟩ := h
        right
        refine ⟨c, i + 1, ?_, row', by simpa using hrow', px, hpx, hstart⟩
        have harith : r0 + 1 + i = r0 + (i + 1) := by omega
        rw [findStartRows, hrow, heq, harith]

/-- Claim C6 counterexample: on the empty grid `execute` leaves `pc` at the
origin default `(0, 0)`, which is not a valid coordinate of that grid. -/
theorem pc_validity_counterexample :
    (VM.new.execute sampleMap ([] : List (List Pixel))).pc = ⟨0, 0⟩ ∧
    Matrix.validPoint []
      ((VM.new.execute sampleMap ([] : List (List Pixel))).pc) = false :=
  ⟨rfl, rfl⟩

/-- Claim C6 (amended): after `execute(grid)` the program counter is a valid
coordinate of the grid, provided the origin `(0, 0)` is itself a valid
coordinate of that grid (the grid's first row exists and is non-empty) — the
origin default makes the invariant fail on grids without a first cell, such
as the empty grid. -/
theorem pc_valid_after_execute (asInstruction : Pixel → Instruction)
    (vm : VM) (g : List (List Pixel))
    (h : Matrix.validPoint g ⟨0, 0⟩ = true) :
    Matrix.validPoint g ((vm.execute asInstruction g).pc) = true := by
  have hpc : (vm.execute asInstruction g).pc = findStartRows asInstruction g 0
    := rfl
  rw [hpc]
  cases findStartRows_valid asInstruction g 0 with
  | inl he => rw [he]; exact h
  | inr he =>
    obtain ⟨c, i, heq, row, hrow, px, hpx, _⟩ := he
    rw [heq]
    simp only [Matrix.validPoint, Matrix.cellAt, Nat.zero_add, hrow, hpx,
      Option.isSome_some]

/-- Claim C6 (amended) witness: on a 1x1 grid the origin is valid and so is
the post-`execute` program counter. -/
theorem pc_valid_after_execute_witness :
    Matrix.validPoint [[5]] ⟨0, 0⟩ = true ∧
    Matrix.validPoint [[5]] ((VM.new.execute sampleMap [[5]]).pc) = true :=
  ⟨rfl, pc_valid_after_execute sampleMap VM.new [[5]] rfl⟩
